import Mathlib

/-!
# The YARP extension driver (`ext/yarp/extension.c`)

A shallow embedding of the C driver that sits between Ruby and the YARP engine,
followed by theorems about it.

Conventions of the embedding:

* a byte is a `Nat`; a `char[]` holding a NUL-terminated string is the list of the
  bytes before the terminator, and reading past its end gives `0`;
* host (Ruby) values are the terms of `VALUE`;
* the engine (`yp_parse`, `yp_unescape`, ...) is defined outside `extension.c`; it is
  a parameter of the functions that call it;
* every driver function returns its host value (`none` when the call does not
  return because the process dies in it) together with the log of the calls it made
  to the system and the engine, in order.
-/

set_option autoImplicit false

namespace Yarp

/-! ## Host values -/

/-- A host encoding (`rb_encoding *`), identified by its index in the host table. -/
structure rb_encoding where
  index : Nat
  deriving DecidableEq, Repr

/-- The host functions on encodings that the driver calls. -/
structure Host where
  rb_enc_find : String → rb_encoding
  rb_utf8_encoding : rb_encoding

/-- The host classes the driver instantiates. -/
inductive Klass where
  | rb_cYARPLocation
  | rb_cYARPComment
  | rb_cYARPParseError
  | rb_cYARPParseWarning
  | rb_cYARPParseResult
  deriving DecidableEq, Repr

/-- Modelled from the spec: the engine's token record `yp_token_t` (declared outside
`extension.c`); the driver only hands it to `yp_token_new`. -/
structure yp_token_t where
  type : Nat
  start : Nat
  end_ : Nat
  deriving DecidableEq, Repr

/-- Modelled from the spec: the engine's tree `yp_node_t *` (declared outside `extension.c`); the
driver only passes it around. -/
structure yp_node_t where
  id : Nat
  deriving DecidableEq, Repr

/-- The name of a character-classification function stored in a descriptor. -/
inductive CharFn where
  | yp_encoding_ascii_alnum_char
  | yp_encoding_ascii_alpha_char
  | yp_encoding_ascii_isupper_char
  | yp_encoding_big5_alnum_char
  | yp_encoding_big5_alpha_char
  | yp_encoding_big5_isupper_char
  | yp_encoding_iso_8859_9_alnum_char
  | yp_encoding_iso_8859_9_alpha_char
  | yp_encoding_iso_8859_9_isupper_char
  | yp_encoding_utf_8_alnum_char
  | yp_encoding_utf_8_alpha_char
  | yp_encoding_utf_8_isupper_char
  deriving DecidableEq, Repr

/-- An encoding descriptor (`yp_encoding_t`), with the four fields the driver's
initialisers set. -/
structure yp_encoding_t where
  name : String
  alnum_char : CharFn
  alpha_char : CharFn
  isupper_char : CharFn
  deriving DecidableEq, Repr

/-- Modelled from the spec: the engine's string `yp_string_t` (declared outside `extension.c`);
`yp_string_source` and `yp_string_length` together give these bytes. -/
abbrev yp_string_t := List Nat

/-- Modelled from the spec: the engine's comment classification `yp_comment_type_t`
(declared outside `extension.c`). The three enumerators the driver names are kept abstract;
`other raw` stands for every value of the field that is none of the three. -/
inductive yp_comment_type_t where
  | YP_COMMENT_INLINE
  | YP_COMMENT_EMBDOC
  | YP_COMMENT___END__
  | other (raw : Nat)
  deriving DecidableEq, Repr

/-- Modelled from the spec: the engine's comment record `yp_comment_t` (declared
outside `extension.c`), with the fields the driver reads. -/
structure yp_comment_t where
  start : Int
  end_ : Int
  type : yp_comment_type_t
  deriving DecidableEq, Repr

/-- Modelled from the spec: the engine's error or warning record `yp_diagnostic_t`
(declared outside `extension.c`), with the fields the driver reads. -/
structure yp_diagnostic_t where
  start : Int
  end_ : Int
  message : yp_string_t
  deriving DecidableEq, Repr

/-- Modelled from the spec: the engine state `yp_parser_t` (declared outside `extension.c`), with
the fields the driver reads. A linked list (`head`, then `node.next` until `NULL`)
is the list of its entries, in that order. -/
structure yp_parser_t where
  lex_state : Int
  comment_list : List yp_comment_t
  error_list : List yp_diagnostic_t
  warning_list : List yp_diagnostic_t
  encoding : yp_encoding_t
  deriving DecidableEq, Repr

/-- A host value. `token` and `node` are what the adapters `yp_token_new` and
`yp_node_new` return for their three arguments. -/
inductive VALUE where
  | Qnil
  | fixnum (n : Int)
  | symbol (name : String)
  | string (bytes : List Nat) (enc : Option rb_encoding)
  | array (elems : List VALUE)
  | object (klass : Klass) (argv : List VALUE)
  | token (parser : yp_parser_t) (tok : yp_token_t) (enc : rb_encoding)
  | node (parser : yp_parser_t) (n : yp_node_t) (enc : rb_encoding)

open VALUE (Qnil)

/-- Embeds `rb_ary_new()` and `rb_ary_new_capa(n)`. -/
def rb_ary_new : VALUE := .array []

/-- Embeds `rb_ary_push(ary, item)`; the driver only pushes onto arrays. -/
def rb_ary_push (ary item : VALUE) : VALUE :=
  match ary with
  | .array xs => .array (xs ++ [item])
  | v => v

/-- Embeds `rb_str_new(ptr, len)`: a string in the host's binary encoding. -/
def rb_str_new (s : yp_string_t) : VALUE := .string s none

/-- Embeds `rb_enc_str_new(ptr, len, enc)`. -/
def rb_enc_str_new (s : yp_string_t) (enc : rb_encoding) : VALUE := .string s (some enc)

/-- Embeds `rb_class_new_instance(argc, argv, klass)`. -/
def rb_class_new_instance (argv : List VALUE) (klass : Klass) : VALUE := .object klass argv

/-- Embeds `LONG2FIX(i)`: `(i << 1) | 1` read back as a 63-bit signed fixnum. -/
def LONG2FIX (i : Int) : VALUE := .fixnum ((i + (2 : Int) ^ 62) % (2 : Int) ^ 63 - (2 : Int) ^ 62)

/-- Embeds `INT2FIX(i)`, the same macro. -/
def INT2FIX (i : Int) : VALUE := LONG2FIX i

/-- Modelled from the spec: the host adapter `yp_token_new(parser, token, encoding)`
(defined outside `extension.c`), kept uninterpreted: its result records its three
arguments. -/
def yp_token_new (parser : yp_parser_t) (token : yp_token_t) (encoding : rb_encoding) : VALUE :=
  .token parser token encoding

/-- Modelled from the spec: the host adapter `yp_node_new(parser, node, encoding)`
(defined outside `extension.c`), kept uninterpreted: its result records its three
arguments. -/
def yp_node_new (parser : yp_parser_t) (node : yp_node_t) (encoding : rb_encoding) : VALUE :=
  .node parser node encoding

/-- Embeds `ID2SYM(rb_intern(name))`. -/
def ID2SYM (name : String) : VALUE := .symbol name

/-! ## The encoding registry and `lex_encoding_callback` -/

/-- The bytes of a string literal. -/
def bytes (s : String) : List Nat := s.toList.map Char.toNat

/-- The ASCII case fold: `A`..`Z` go to `a`..`z`, every other byte stays. -/
def ascii_tolower (c : Nat) : Nat := if 65 ≤ c ∧ c ≤ 90 then c + 32 else c

/-- The process the driver runs in, as far as `lex_encoding_callback` depends on it:
`tolower` is the C library's `tolower` under the `LC_CTYPE` of the process, with
which `strncasecmp` folds, and `stack` is the number of bytes of stack left for the
array `compare` when the callback is entered. -/
structure Process where
  tolower : Nat → Nat
  stack : Nat

/-- Embeds `strncasecmp(s1, s2, n)` of the C library on NUL-terminated strings; it
folds with the `tolower` of the process locale. -/
def strncasecmp (tolower : Nat → Nat) : List Nat → List Nat → Nat → Int
  | _, _, 0 => 0
  | s1, s2, n + 1 =>
    let c1 := tolower (s1.headD 0)
    let c2 := tolower (s2.headD 0)
    if c1 ≠ c2 then (c1 : Int) - (c2 : Int)
    else if c1 = 0 then 0
    else strncasecmp tolower s1.tail s2.tail n

/-- The cast `(int) width` of a `size_t`. -/
def int_of_size_t (width : Nat) : Int :=
  let m : Nat := width % 2 ^ 32
  if m < 2 ^ 31 then (m : Int) else (m : Int) - 2 ^ 32

/-- The string written by `sprintf(compare, "%.*s", precision, start)`: the bytes at
`start` up to the first NUL, at most `precision` of them when it is not negative. -/
def sprintf_prec (precision : Int) (start : List Nat) : List Nat :=
  if precision < 0 then start.takeWhile (fun b => b != 0)
  else (start.take precision.toNat).takeWhile (fun b => b != 0)

def yp_encoding_ascii : yp_encoding_t :=
  { name := "ascii",
    alnum_char := .yp_encoding_ascii_alnum_char,
    alpha_char := .yp_encoding_ascii_alpha_char,
    isupper_char := .yp_encoding_ascii_isupper_char }

def yp_encoding_ascii_8bit : yp_encoding_t :=
  { name := "ascii-8bit",
    alnum_char := .yp_encoding_ascii_alnum_char,
    alpha_char := .yp_encoding_ascii_alpha_char,
    isupper_char := .yp_encoding_ascii_isupper_char }

def yp_encoding_big5 : yp_encoding_t :=
  { name := "big5",
    alnum_char := .yp_encoding_big5_alnum_char,
    alpha_char := .yp_encoding_big5_alpha_char,
    isupper_char := .yp_encoding_big5_isupper_char }

def yp_encoding_iso_8859_9 : yp_encoding_t :=
  { name := "iso-8859-9",
    alnum_char := .yp_encoding_iso_8859_9_alnum_char,
    alpha_char := .yp_encoding_iso_8859_9_alpha_char,
    isupper_char := .yp_encoding_iso_8859_9_isupper_char }

def yp_encoding_utf_8 : yp_encoding_t :=
  { name := "utf-8",
    alnum_char := .yp_encoding_utf_8_alnum_char,
    alpha_char := .yp_encoding_utf_8_alpha_char,
    isupper_char := .yp_encoding_utf_8_isupper_char }

/-- The context of a lex run (`lex_data_t`). -/
structure lex_data_t where
  tokens : VALUE
  encoding : rb_encoding

/-- The test of the `ENCODING(value, prebuilt)` macro:
`width == sizeof(value) - 1 && strncasecmp(compare, value, sizeof(value) - 1) == 0`. -/
def ENCODING (tolower : Nat → Nat) (compare : List Nat) (width : Nat) (value : String) : Bool :=
  width == (bytes value).length &&
    strncasecmp tolower compare (bytes value) (bytes value).length == 0

/-- Embeds `lex_encoding_callback(parser, start, width)`. `start` is the memory readable at
the pointer; `lex_data` is `parser->lex_callback->data`. Returns the descriptor
(`none` for `NULL`) and the context afterwards; the whole result is `none` when the
call does not return: the array `char compare[width + 1]` is taken from the stack,
and the process dies when it does not fit. -/
def lex_encoding_callback (P : Process) (H : Host) (lex_data : lex_data_t) (start : List Nat)
    (width : Nat) : Option (Option yp_encoding_t × lex_data_t) :=
  if P.stack < width + 1 then none
  else
    let compare := sprintf_prec (int_of_size_t width) start
    if ENCODING P.tolower compare width "ascii" then
      some (some yp_encoding_ascii,
        { lex_data with encoding := H.rb_enc_find yp_encoding_ascii.name })
    else if ENCODING P.tolower compare width "ascii-8bit" then
      some (some yp_encoding_ascii_8bit,
        { lex_data with encoding := H.rb_enc_find yp_encoding_ascii_8bit.name })
    else if ENCODING P.tolower compare width "big5" then
      some (some yp_encoding_big5,
        { lex_data with encoding := H.rb_enc_find yp_encoding_big5.name })
    else if ENCODING P.tolower compare width "binary" then
      some (some yp_encoding_ascii_8bit,
        { lex_data with encoding := H.rb_enc_find yp_encoding_ascii_8bit.name })
    else if ENCODING P.tolower compare width "iso-8859-9" then
      some (some yp_encoding_iso_8859_9,
        { lex_data with encoding := H.rb_enc_find yp_encoding_iso_8859_9.name })
    else if ENCODING P.tolower compare width "us-ascii" then
      some (some yp_encoding_ascii,
        { lex_data with encoding := H.rb_enc_find yp_encoding_ascii.name })
    else if ENCODING P.tolower compare width "utf-8" then
      some (some yp_encoding_utf_8,
        { lex_data with encoding := H.rb_enc_find yp_encoding_utf_8.name })
    else
      some (none, lex_data)

/-- The directive `s` equals `name` when ASCII case is ignored, over its whole length. -/
def caseless_eq (s : List Nat) (name : String) : Prop :=
  s.map ascii_tolower = (bytes name).map ascii_tolower

instance (s : List Nat) (name : String) : Decidable (caseless_eq s name) := by
  unfold caseless_eq; infer_instance

/-- The locale folds every ASCII byte as ASCII does and sends no other byte to an ASCII
byte (so the "C", the UTF-8 and the Latin-1 locales, but not one where `I` has no
`i`). -/
def ascii_folding (tolower : Nat → Nat) : Prop :=
  (∀ b, b < 128 → tolower b = ascii_tolower b) ∧ (∀ b, 128 ≤ b → 128 ≤ tolower b)

/-! ## The world outside the driver -/

/-- A `const char *`: an address together with the bytes readable there. -/
structure Ptr where
  addr : Nat
  bytes : List Nat
  deriving DecidableEq, Repr

/-- Embeds `MAP_FAILED`, that is `(void *) -1` on a 64-bit machine. -/
def MAP_FAILED : Nat := 2 ^ 64 - 1

/-- The system calls of one driver call, as functions of their arguments. -/
structure OS where
  /-- Embeds `open(path, O_RDONLY)`: a descriptor, or `-1`. -/
  open_ : List Nat → Int
  /-- Embeds `fstat(fd, &sb)`: `sb.st_size`, or `none` when it returns `-1`. -/
  fstat : Int → Option Nat
  /-- Embeds `mmap(NULL, length, PROT_READ, MAP_PRIVATE, fd, 0)`: the region, or a pointer
  whose address is `MAP_FAILED`. -/
  mmap : Nat → Int → Ptr
  /-- Embeds `malloc(size)`: the address of the block. -/
  malloc : Nat → Nat

/-- Modelled from the spec: the three policies of the escape decoder, the enumerators
of `yp_unescape_type_t` (declared outside `extension.c`). -/
inductive yp_unescape_type_t where
  | YP_UNESCAPE_NONE
  | YP_UNESCAPE_MINIMAL
  | YP_UNESCAPE_ALL
  deriving DecidableEq, Repr

/-- Modelled from the spec: one run of the engine's `yp_parse`, which is defined outside
`extension.c`, as the spec's contract describes it: the engine invokes the
token-emission callback once per token and the encoding-resolution callback zero or
more times, goes on according to what the latter returns, and ends with a tree and
its final state. -/
inductive Run where
  | finished (parser : yp_parser_t) (node : yp_node_t)
  | token (parser : yp_parser_t) (tok : yp_token_t) (next : Run)
  | directive (parser : yp_parser_t) (start : List Nat) (width : Nat)
      (next : Option yp_encoding_t → Run)

/-- Modelled from the spec: the engine functions the driver calls, all defined outside
`extension.c`. `yp_parse_run source size` is what `yp_parse` does on a
parser initialised by `yp_parser_init(&parser, source, size)`; `yp_unescape` gives
the decoded string and the error list it filled; the capture-name function gives its
boolean result and the string list it filled. -/
structure Engine where
  yp_parse_run : Ptr → Nat → Run
  yp_serialize : yp_parser_t → yp_node_t → List Nat
  yp_regexp_named_capture_group_names : List Nat → Bool × List yp_string_t
  yp_unescape : List Nat → yp_unescape_type_t → yp_string_t × List yp_diagnostic_t

/-- A call that leaves the driver, or a callback the engine makes into it. -/
inductive Call where
  | open_ (path : List Nat)
  | fstat (fd : Int)
  | mmap (length : Nat) (fd : Int)
  | close (fd : Int)
  | perror (s : String)
  | munmap (addr : Nat) (length : Nat)
  | malloc (size : Nat)
  | free (addr : Nat)
  | yp_parser_init (source : Nat) (size : Nat)
  | yp_parser_register_encoding_decode_callback
  | yp_parse
  | lex_callback (parser : yp_parser_t) (tok : yp_token_t)
  | encoding_decode_callback (start : List Nat) (width : Nat)
  | yp_buffer_init
  | yp_serialize
  | yp_node_destroy
  | yp_buffer_free
  | yp_parser_free
  deriving DecidableEq, Repr

/-- The call belongs to the engine: a call into it, or a callback out of it. -/
def Call.is_engine : Call → Bool
  | .yp_parser_init _ _ => true
  | .yp_parser_register_encoding_decode_callback => true
  | .yp_parse => true
  | .lex_callback _ _ => true
  | .encoding_decode_callback _ _ => true
  | .yp_buffer_init => true
  | .yp_serialize => true
  | .yp_node_destroy => true
  | .yp_buffer_free => true
  | .yp_parser_free => true
  | _ => false

/-- The call releases a source buffer (`munmap` or `free`). -/
def Call.is_release : Call → Bool
  | .munmap _ _ => true
  | .free _ => true
  | _ => false

/-- The call acquires a source buffer (`mmap` or `malloc`). -/
def Call.is_acquire : Call → Bool
  | .mmap _ _ => true
  | .malloc _ => true
  | _ => false

/-- What a run of `yp_parse` leaves behind: the final parser state and the tree it
returned (`none` when the run did not return), the callback data, and the callbacks
the engine made, in order. -/
structure Parsed (σ : Type) where
  returned : Option (yp_parser_t × yp_node_t)
  data : σ
  calls : List Call

/-- Modelled from the spec: `yp_parse(&parser)` on a parser whose `lex_callback` and
`encoding_decode_callback` are the given ones (`none` when not registered) and whose
callback data is `data`. An unregistered callback is not invoked, and the run ends
without returning when a callback does not return. -/
def yp_parse {σ : Type} (lex_callback : Option (yp_parser_t → yp_token_t → σ → σ))
    (encoding_decode_callback :
      Option (σ → List Nat → Nat → Option (Option yp_encoding_t × σ))) :
    Run → σ → Parsed σ
  | .finished parser node, data =>
    { returned := some (parser, node), data := data, calls := [] }
  | .token parser tok next, data =>
    match lex_callback with
    | some callback =>
      let r := yp_parse lex_callback encoding_decode_callback next (callback parser tok data)
      { r with calls := Call.lex_callback parser tok :: r.calls }
    | none => yp_parse lex_callback encoding_decode_callback next data
  | .directive _ start width next, data =>
    match encoding_decode_callback with
    | some callback =>
      match callback data start width with
      | some answer =>
        let r := yp_parse lex_callback encoding_decode_callback (next answer.1) answer.2
        { r with calls := Call.encoding_decode_callback start width :: r.calls }
      | none =>
        { returned := none, data := data, calls := [Call.encoding_decode_callback start width] }
    | none => yp_parse lex_callback encoding_decode_callback (next none) data

/-- Everything outside the driver during one driver call. `frame` is the address of
the local `source_t source` of the running driver function and `garbage` its
contents before it is written. -/
structure Env where
  os : OS
  engine : Engine
  host : Host
  process : Process
  frame : Nat
  garbage : Ptr × Nat

/-! ## The source buffer -/

inductive source_type where
  | SOURCE_FILE
  | SOURCE_STRING
  deriving DecidableEq, Repr

/-- The struct `source_t`; `type` is `none` while the field has not been written. -/
structure source_t where
  type : Option source_type
  source : Ptr
  size : Nat
  deriving DecidableEq, Repr

/-- Embeds `source_file_load(source, filepath)`. `source_addr` is the pointer `source` itself
and `source0` the struct it points to on entry. Returns the `int` result, the struct
afterwards, and the calls made. -/
def source_file_load (os : OS) (source_addr : Nat) (source0 : source_t) (filepath : List Nat) :
    Int × source_t × List Call :=
  let fd := os.open_ filepath
  if fd = -1 then
    (1, source0, [.open_ filepath, .perror "open"])
  else
    match os.fstat fd with
    | none => (1, source0, [.open_ filepath, .fstat fd, .close fd, .perror "fstat"])
    | some st_size =>
      let source1 := { source0 with size := st_size }
      let source2 := { source1 with source := os.mmap source1.size fd }
      if source_addr = MAP_FAILED then
        (1, source2, [.open_ filepath, .fstat fd, .mmap source1.size fd, .close fd, .perror "mmap"])
      else
        (0, source2, [.open_ filepath, .fstat fd, .mmap source1.size fd, .close fd])

/-- Embeds `source_string_load(source, string)`: `malloc`, `memcpy`, and the struct written. -/
def source_string_load (os : OS) (string : List Nat) : source_t × List Call :=
  let copy : Ptr := { addr := os.malloc string.length, bytes := string }
  ({ type := some .SOURCE_STRING, source := copy, size := string.length },
   [.malloc string.length])

/-- Embeds `source_file_unload(source)`. -/
def source_file_unload (source : source_t) : List Call :=
  [.munmap source.source.addr source.size]

/-- The local `source_t source;` of a driver function before it is written. -/
def local_source (env : Env) : source_t :=
  { type := none, source := env.garbage.1, size := env.garbage.2 }

/-! ## Serialize -/

/-- Embeds `dump_source(source)`. -/
def dump_source (env : Env) (source : source_t) : Option VALUE × List Call :=
  let r := yp_parse (none : Option (yp_parser_t → yp_token_t → Unit → Unit)) none
    (env.engine.yp_parse_run source.source source.size) ()
  match r.returned with
  | none => (none, [.yp_parser_init source.source.addr source.size, .yp_parse] ++ r.calls)
  | some parsed =>
    let buffer := env.engine.yp_serialize parsed.1 parsed.2
    let dumped := rb_str_new buffer
    (some dumped,
     [.yp_parser_init source.source.addr source.size, .yp_parse] ++ r.calls ++
     [.yp_buffer_init, .yp_serialize, .yp_node_destroy, .yp_buffer_free, .yp_parser_free])

/-- Embeds `dump(self, string)`. -/
def dump (env : Env) (string : List Nat) : Option VALUE × List Call :=
  let loaded := source_string_load env.os string
  let dumped := dump_source env loaded.1
  (dumped.1, loaded.2 ++ dumped.2)

/-- Embeds `dump_file(self, filepath)`. -/
def dump_file (env : Env) (filepath : List Nat) : Option VALUE × List Call :=
  let loaded := source_file_load env.os env.frame (local_source env) filepath
  if loaded.1 ≠ 0 then (some Qnil, loaded.2.2)
  else
    let value := dump_source env loaded.2.1
    match value.1 with
    | none => (none, loaded.2.2 ++ value.2)
    | some v => (some v, loaded.2.2 ++ value.2 ++ source_file_unload loaded.2.1)

/-! ## The diagnostic collector -/

/-- The `switch (comment->type)` of `parser_comments`. -/
def comment_type_symbol (type : yp_comment_type_t) : VALUE :=
  match type with
  | .YP_COMMENT_INLINE => ID2SYM "inline"
  | .YP_COMMENT_EMBDOC => ID2SYM "embdoc"
  | .YP_COMMENT___END__ => ID2SYM "__END__"
  | _ => ID2SYM "inline"

/-- Embeds `parser_comments(parser)`: the loop over `parser->comment_list`. -/
def parser_comments (parser : yp_parser_t) : VALUE :=
  parser.comment_list.foldl
    (fun comments comment =>
      let location_argv := [LONG2FIX comment.start, LONG2FIX comment.end_]
      let type := comment_type_symbol comment.type
      let comment_argv := [type, rb_class_new_instance location_argv .rb_cYARPLocation]
      rb_ary_push comments (rb_class_new_instance comment_argv .rb_cYARPComment))
    rb_ary_new

/-- Embeds `parser_errors(parser, encoding)`: the loop over `parser->error_list`. -/
def parser_errors (parser : yp_parser_t) (encoding : rb_encoding) : VALUE :=
  parser.error_list.foldl
    (fun errors error =>
      let location_argv := [LONG2FIX error.start, LONG2FIX error.end_]
      let error_argv := [rb_enc_str_new error.message encoding,
                         rb_class_new_instance location_argv .rb_cYARPLocation]
      rb_ary_push errors (rb_class_new_instance error_argv .rb_cYARPParseError))
    rb_ary_new

/-- Embeds `parser_warnings(parser, encoding)`: the loop over `parser->warning_list`. -/
def parser_warnings (parser : yp_parser_t) (encoding : rb_encoding) : VALUE :=
  parser.warning_list.foldl
    (fun warnings warning =>
      let location_argv := [LONG2FIX warning.start, LONG2FIX warning.end_]
      let warning_argv := [rb_enc_str_new warning.message encoding,
                           rb_class_new_instance location_argv .rb_cYARPLocation]
      rb_ary_push warnings (rb_class_new_instance warning_argv .rb_cYARPParseWarning))
    rb_ary_new

/-! ## Lex -/

/-- Embeds `lex_token(data, parser, token)`; `lex_data` is `parser->lex_callback->data`. -/
def lex_token (parser : yp_parser_t) (token : yp_token_t) (lex_data : lex_data_t) : lex_data_t :=
  let yields := rb_ary_new
  let yields := rb_ary_push yields (yp_token_new parser token lex_data.encoding)
  let yields := rb_ary_push yields (INT2FIX parser.lex_state)
  { lex_data with tokens := rb_ary_push lex_data.tokens yields }

/-- The run of `yp_parse` inside `lex_source`, with both callbacks registered and a
fresh `lex_data`. -/
def lex_source_parse (env : Env) (source : source_t) : Parsed lex_data_t :=
  yp_parse (some lex_token) (some (lex_encoding_callback env.process env.host))
    (env.engine.yp_parse_run source.source source.size)
    { tokens := rb_ary_new, encoding := env.host.rb_utf8_encoding }

/-- Embeds `lex_source(source)`. -/
def lex_source (env : Env) (source : source_t) : Option VALUE × List Call :=
  let r := lex_source_parse env source
  match r.returned with
  | none =>
    (none,
     [.yp_parser_init source.source.addr source.size,
      .yp_parser_register_encoding_decode_callback, .yp_parse] ++ r.calls)
  | some parsed =>
    let result_argv := [r.data.tokens, parser_comments parsed.1,
                        parser_errors parsed.1 r.data.encoding,
                        parser_warnings parsed.1 r.data.encoding]
    let result := rb_class_new_instance result_argv .rb_cYARPParseResult
    (some result,
     [.yp_parser_init source.source.addr source.size,
      .yp_parser_register_encoding_decode_callback, .yp_parse] ++ r.calls ++
     [.yp_node_destroy, .yp_parser_free])

/-- Embeds `lex(self, string)`. -/
def lex (env : Env) (string : List Nat) : Option VALUE × List Call :=
  let loaded := source_string_load env.os string
  let value := lex_source env loaded.1
  (value.1, loaded.2 ++ value.2)

/-- Embeds `lex_file(self, filepath)`. -/
def lex_file (env : Env) (filepath : List Nat) : Option VALUE × List Call :=
  let loaded := source_file_load env.os env.frame (local_source env) filepath
  if loaded.1 ≠ 0 then (some Qnil, loaded.2.2)
  else
    let value := lex_source env loaded.2.1
    match value.1 with
    | none => (none, loaded.2.2 ++ value.2)
    | some v => (some v, loaded.2.2 ++ value.2 ++ source_file_unload loaded.2.1)

/-! ## Parse -/

/-- Embeds `parse_source(source)`. -/
def parse_source (env : Env) (source : source_t) : Option VALUE × List Call :=
  let r := yp_parse (none : Option (yp_parser_t → yp_token_t → Unit → Unit)) none
    (env.engine.yp_parse_run source.source source.size) ()
  match r.returned with
  | none => (none, [.yp_parser_init source.source.addr source.size, .yp_parse] ++ r.calls)
  | some parsed =>
    let encoding := env.host.rb_enc_find parsed.1.encoding.name
    let result_argv := [yp_node_new parsed.1 parsed.2 encoding, parser_comments parsed.1,
                        parser_errors parsed.1 encoding, parser_warnings parsed.1 encoding]
    let result := rb_class_new_instance result_argv .rb_cYARPParseResult
    (some result,
     [.yp_parser_init source.source.addr source.size, .yp_parse] ++ r.calls ++
     [.yp_node_destroy, .yp_parser_free])

/-- Embeds `parse(self, string)`. -/
def parse (env : Env) (string : List Nat) : Option VALUE × List Call :=
  let loaded := source_string_load env.os string
  let value := parse_source env loaded.1
  (value.1, loaded.2 ++ value.2)

/-- Embeds `parse_file(self, rb_filepath)`. -/
def parse_file (env : Env) (rb_filepath : List Nat) : Option VALUE × List Call :=
  let loaded := source_file_load env.os env.frame (local_source env) rb_filepath
  if loaded.1 ≠ 0 then (some Qnil, loaded.2.2)
  else
    let value := parse_source env loaded.2.1
    match value.1 with
    | none => (none, loaded.2.2 ++ value.2)
    | some v => (some v, loaded.2.2 ++ value.2 ++ source_file_unload loaded.2.1)

/-! ## Capture names and escapes -/

/-- Embeds `named_captures(self, rb_source)`. -/
def named_captures (engine : Engine) (rb_source : List Nat) : VALUE :=
  let answer := engine.yp_regexp_named_capture_group_names rb_source
  let string_list := answer.2
  if !answer.1 then Qnil
  else
    (List.range string_list.length).foldl
      (fun names index => rb_ary_push names (rb_str_new (string_list.getD index [])))
      rb_ary_new

/-- Modelled from the spec: the engine's `yp_list_empty(list)` (defined outside
`extension.c`): the list has no entry. -/
def yp_list_empty {α : Type} (list : List α) : Bool := list.isEmpty

/-- Embeds `unescape(source, unescape_type)`. -/
def unescape (engine : Engine) (source : List Nat) (unescape_type : yp_unescape_type_t) : VALUE :=
  let answer := engine.yp_unescape source unescape_type
  let string := answer.1
  let error_list := answer.2
  if yp_list_empty error_list then rb_str_new string else Qnil

/-- Embeds `unescape_none(self, source)`. -/
def unescape_none (engine : Engine) (source : List Nat) : VALUE :=
  unescape engine source .YP_UNESCAPE_NONE

/-- Embeds `unescape_minimal(self, source)`. -/
def unescape_minimal (engine : Engine) (source : List Nat) : VALUE :=
  unescape engine source .YP_UNESCAPE_MINIMAL

/-- Embeds `unescape_all(self, source)`. -/
def unescape_all (engine : Engine) (source : List Nat) : VALUE :=
  unescape engine source .YP_UNESCAPE_ALL

/-! ## Reading results and call logs -/

/-- The elements of a host array (none for any other value). -/
def VALUE.elems : VALUE → List VALUE
  | .array xs => xs
  | _ => []

/-- The token emissions in a call log, in order. -/
def emissions : List Call → List (yp_parser_t × yp_token_t)
  | [] => []
  | .lex_callback parser tok :: rest => (parser, tok) :: emissions rest
  | _ :: rest => emissions rest

/-- The answer of the driver's encoding callback to a directive: the descriptor it
returns (`none` for `NULL`), or `none` for the whole when it does not return. The
answer does not depend on the callback data. -/
def lex_answer (env : Env) (start : List Nat) (width : Nat) : Option (Option yp_encoding_t) :=
  (lex_encoding_callback env.process env.host
    { tokens := rb_ary_new, encoding := env.host.rb_utf8_encoding } start width).map Prod.fst

/-- The tokens an engine run emits, in order, along the path that the answers to its
directives select; the run stops at a directive whose answer never comes. -/
def Run.emitted (answer : List Nat → Nat → Option (Option yp_encoding_t)) :
    Run → List (yp_parser_t × yp_token_t)
  | .finished _ _ => []
  | .token parser tok next => (parser, tok) :: next.emitted answer
  | .directive _ start width next =>
    match answer start width with
    | some d => (next d).emitted answer
    | none => []

/-- The final parser state and tree of an engine run along the path that the answers
select, or `none` when the run stops at a directive whose answer never comes. -/
def Run.final (answer : List Nat → Nat → Option (Option yp_encoding_t)) :
    Run → Option (yp_parser_t × yp_node_t)
  | .finished parser node => some (parser, node)
  | .token _ _ next => next.final answer
  | .directive _ start width next =>
    match answer start width with
    | some d => (next d).final answer
    | none => none

/-- The descriptor of the last directive of an engine run that was answered with a
descriptor, along the path that the answers select; `none` when there is none. -/
def Run.last_resolved (answer : List Nat → Nat → Option (Option yp_encoding_t)) :
    Run → Option yp_encoding_t
  | .finished _ _ => none
  | .token _ _ next => next.last_resolved answer
  | .directive _ start width next =>
    match answer start width with
    | some d =>
      match (next d).last_resolved answer with
      | some later => some later
      | none => d
    | none => none

/-- The host encoding of the last directive of the run that resolved, or UTF-8 when
none did. -/
def last_resolved_encoding (env : Env) (run : Run) : rb_encoding :=
  match run.last_resolved (lex_answer env) with
  | some d => env.host.rb_enc_find d.name
  | none => env.host.rb_utf8_encoding

/-- The array entry `lex_token` builds for one emission: the host token of the emitted
token (in some host encoding) paired with the parser's `lex_state` at that callback. -/
def token_entry_of (entry : VALUE) (emission : yp_parser_t × yp_token_t) : Prop :=
  ∃ encoding : rb_encoding,
    entry = .array [yp_token_new emission.1 emission.2 encoding, INT2FIX emission.1.lex_state]

/-! ## Sample worlds -/

def sample_state : yp_parser_t :=
  { lex_state := 1, comment_list := [], error_list := [], warning_list := [],
    encoding := yp_encoding_utf_8 }

/-- An engine that asks for the encoding named by the whole source, then emits one
token and finishes. -/
def sample_engine : Engine :=
  { yp_parse_run := fun source size =>
      .directive sample_state (source.bytes.take size) size fun _ =>
        .token sample_state { type := 1, start := 0, end_ := size }
          (.finished sample_state { id := 0 })
    yp_serialize := fun _ _ => [89, 65, 82, 80]
    yp_regexp_named_capture_group_names := fun _ => (false, [])
    yp_unescape := fun source _ => (source, []) }

def sample_host : Host :=
  { rb_enc_find := fun name => { index := name.length }, rb_utf8_encoding := { index := 5 } }

/-- A process in the "C" locale with 8 MiB of stack left. -/
def c_locale : Process := { tolower := ascii_tolower, stack := 8388608 }

/-- A process in a locale where `I` has no one-byte lower case, so that `tolower`
leaves it alone, with 8 MiB of stack left. -/
def dotless_locale : Process :=
  { tolower := fun b => if b = 73 then 73 else ascii_tolower b, stack := 8388608 }

def sample_lex_data : lex_data_t := { tokens := rb_ary_new, encoding := { index := 5 } }

/-- The path names an existing empty file: `open` and `fstat` succeed, and `mmap` of
length `0` fails (`EINVAL`). -/
def empty_file_os : OS :=
  { open_ := fun _ => 3
    fstat := fun _ => some 0
    mmap := fun length _ =>
      if length = 0 then { addr := MAP_FAILED, bytes := [] }
      else { addr := 0x7f0000000000, bytes := List.replicate length 10 }
    malloc := fun _ => 0x5555000000 }

/-- The path names no file: `open` fails. -/
def missing_file_os : OS :=
  { open_ := fun _ => -1
    fstat := fun _ => none
    mmap := fun _ _ => { addr := MAP_FAILED, bytes := [] }
    malloc := fun _ => 0x5555000000 }

def empty_file_env : Env :=
  { os := empty_file_os, engine := sample_engine, host := sample_host, process := c_locale,
    frame := 0x7ffc00001000, garbage := ({ addr := 0, bytes := [] }, 0) }

def missing_file_env : Env :=
  { os := missing_file_os, engine := sample_engine, host := sample_host, process := c_locale,
    frame := 0x7ffc00001000, garbage := ({ addr := 0, bytes := [] }, 0) }

/-! ## Theorems -/

theorem ascii_tolower_eq_zero_iff (c : Nat) : ascii_tolower c = 0 ↔ c = 0 := by
  unfold ascii_tolower; split <;> omega

theorem ascii_tolower_lt (c : Nat) (h : c < 128) : ascii_tolower c < 128 := by
  unfold ascii_tolower; split <;> omega

theorem ascii_tolower_ge (b : Nat) (h : 128 ≤ b) : 128 ≤ ascii_tolower b := by
  unfold ascii_tolower; split <;> omega

theorem ascii_folding_ascii_tolower : ascii_folding ascii_tolower :=
  ⟨fun _ _ => rfl, ascii_tolower_ge⟩

/-- Under an ASCII-folding locale a byte folds to the same as an ASCII byte exactly when
it does so under the ASCII fold. -/
theorem ascii_folding_eq_iff {fold : Nat → Nat} (hfold : ascii_folding fold) (b c : Nat)
    (hc : c < 128) : fold b = fold c ↔ ascii_tolower b = ascii_tolower c := by
  rw [hfold.1 c hc]
  by_cases hb : b < 128
  · rw [hfold.1 b hb]
  · have h1 := hfold.2 b (by omega)
    have h2 := ascii_tolower_ge b (by omega)
    have h3 := ascii_tolower_lt c hc
    constructor <;> intro h <;> omega

/-- Comparing the NUL-truncated copy of `s` with a NUL-free ASCII `name` of the same
length succeeds exactly when the two agree up to ASCII case. -/
theorem strncasecmp_takeWhile_iff {fold : Nat → Nat} (hfold : ascii_folding fold)
    (name : List Nat) (hname : ∀ c ∈ name, c ≠ 0 ∧ c < 128) :
    ∀ s : List Nat, s.length = name.length →
      (strncasecmp fold (s.takeWhile (fun b => b != 0)) name name.length = 0 ↔
        s.map ascii_tolower = name.map ascii_tolower) := by
  induction name with
  | nil => intro s hs; simp at hs; subst hs; simp [strncasecmp]
  | cons c cs ih =>
    intro s hs
    cases s with
    | nil => simp at hs
    | cons m ms =>
      have hc : c ≠ 0 := (hname c (by simp)).1
      have hc128 : c < 128 := (hname c (by simp)).2
      have hfc : fold c = ascii_tolower c := hfold.1 c hc128
      have hc2 : fold c ≠ 0 := by
        rw [hfc]; exact fun h => hc ((ascii_tolower_eq_zero_iff c).1 h)
      have ih2 := ih (fun x hx => hname x (by simp [hx])) ms (by simpa using hs)
      have hiff := ascii_folding_eq_iff hfold m c hc128
      by_cases hm : m = 0
      · subst hm
        have h0 : fold 0 = 0 := by rw [hfold.1 0 (by omega)]; rfl
        have h1 : ¬ (0 = fold c) := fun h => hc2 h.symm
        have h2 : ¬ (ascii_tolower 0 = ascii_tolower c) := by
          rw [← hiff, h0]; exact h1
        simp [strncasecmp, h0, h1, h2]
        omega
      · by_cases heq : fold m = fold c
        · have heq2 : ascii_tolower m = ascii_tolower c := hiff.1 heq
          simp [strncasecmp, hm, heq, hc2, ih2, heq2]
        · have heq2 : ¬ (ascii_tolower m = ascii_tolower c) := fun h => heq (hiff.2 h)
          simp [strncasecmp, hm, heq, heq2]
          omega

theorem sprintf_prec_width (s rest : List Nat) (h : s.length < 2 ^ 31) :
    sprintf_prec (int_of_size_t s.length) (s ++ rest) = s.takeWhile (fun b => b != 0) := by
  have h1 : s.length % 2 ^ 32 = s.length := Nat.mod_eq_of_lt (by omega)
  have h2 : int_of_size_t s.length = (s.length : Int) := by
    simp only [int_of_size_t, h1, if_pos h]
  rw [h2]
  simp [sprintf_prec]

theorem caseless_eq_length {s : List Nat} {name : String} (h : caseless_eq s name) :
    s.length = (bytes name).length := by
  have := congrArg List.length h
  simpa using this

/-- Under an ASCII-folding locale the test of the `ENCODING` macro decides caseless
equality of the directive with an ASCII name. -/
theorem ENCODING_iff {fold : Nat → Nat} (hfold : ascii_folding fold) (value : String)
    (hname : ∀ c ∈ bytes value, c ≠ 0 ∧ c < 128)
    (hlen : (bytes value).length < 2 ^ 31) (s rest : List Nat) :
    ENCODING fold (sprintf_prec (int_of_size_t s.length) (s ++ rest)) s.length value = true ↔
      caseless_eq s value := by
  by_cases hw : s.length = (bytes value).length
  · rw [sprintf_prec_width s rest (by omega)]
    have := strncasecmp_takeWhile_iff hfold (bytes value) hname s hw
    simp [ENCODING, hw, caseless_eq, this]
  · constructor
    · intro h; simp [ENCODING, hw] at h
    · intro h; exact absurd (caseless_eq_length h) hw

theorem caseless_eq_names {s : List Nat} {a b : String} (ha : caseless_eq s a)
    (hb : caseless_eq s b) : (bytes a).map ascii_tolower = (bytes b).map ascii_tolower :=
  ha.symm.trans hb

/-- The descriptor returned by `lex_encoding_callback`, in terms of caseless equality,
under an ASCII-folding locale and with room on the stack. -/
theorem lex_encoding_callback_fst (P : Process) (H : Host) (ld : lex_data_t) (s rest : List Nat)
    (hfold : ascii_folding P.tolower) (hstack : s.length + 1 ≤ P.stack) :
    (lex_encoding_callback P H ld (s ++ rest) s.length).map Prod.fst = some
      (if caseless_eq s "ascii" then some yp_encoding_ascii
      else if caseless_eq s "ascii-8bit" then some yp_encoding_ascii_8bit
      else if caseless_eq s "big5" then some yp_encoding_big5
      else if caseless_eq s "binary" then some yp_encoding_ascii_8bit
      else if caseless_eq s "iso-8859-9" then some yp_encoding_iso_8859_9
      else if caseless_eq s "us-ascii" then some yp_encoding_ascii
      else if caseless_eq s "utf-8" then some yp_encoding_utf_8
      else none) := by
  have h1 := ENCODING_iff hfold "ascii" (by decide) (by decide) s rest
  have h2 := ENCODING_iff hfold "ascii-8bit" (by decide) (by decide) s rest
  have h3 := ENCODING_iff hfold "big5" (by decide) (by decide) s rest
  have h4 := ENCODING_iff hfold "binary" (by decide) (by decide) s rest
  have h5 := ENCODING_iff hfold "iso-8859-9" (by decide) (by decide) s rest
  have h6 := ENCODING_iff hfold "us-ascii" (by decide) (by decide) s rest
  have h7 := ENCODING_iff hfold "utf-8" (by decide) (by decide) s rest
  have hs : ¬ P.stack < s.length + 1 := by omega
  simp only [lex_encoding_callback, if_neg hs, h1, h2, h3, h4, h5, h6, h7]
  repeat' split
  all_goals rfl

theorem foldl_rb_ary_push {α : Type} (f : α → VALUE) (l : List α) :
    ∀ acc : List VALUE,
      l.foldl (fun ary x => rb_ary_push ary (f x)) (.array acc) = .array (acc ++ l.map f) := by
  induction l with
  | nil => intro acc; simp
  | cons x xs ih =>
    intro acc
    have step : rb_ary_push (.array acc) (f x) = .array (acc ++ [f x]) := rfl
    simp only [List.foldl_cons, List.map_cons, step, ih]
    simp

theorem map_getD_range {α : Type} (l : List α) (d : α) :
    (List.range l.length).map (fun i => l.getD i d) = l := by
  apply List.ext_getElem
  · simp
  · intro i h1 h2
    simp [List.getD, List.getElem?_eq_getElem h2]

/-- C5: with any of the three policies, `unescape` returns nil exactly when the
engine's `yp_unescape` left at least one error in the error list, and otherwise
returns the string built from the whole decoded string of the engine; the three
entry points are `unescape` at their policy. -/
theorem unescape_nil_iff_error (engine : Engine) (source : List Nat)
    (unescape_type : yp_unescape_type_t) :
    (unescape engine source unescape_type = Qnil ↔
        (engine.yp_unescape source unescape_type).2 ≠ []) ∧
    ((engine.yp_unescape source unescape_type).2 ≠ [] ∨
        unescape engine source unescape_type =
          rb_str_new (engine.yp_unescape source unescape_type).1) ∧
    unescape_none engine source = unescape engine source .YP_UNESCAPE_NONE ∧
    unescape_minimal engine source = unescape engine source .YP_UNESCAPE_MINIMAL ∧
    unescape_all engine source = unescape engine source .YP_UNESCAPE_ALL := by
  refine ⟨?_, ?_, rfl, rfl, rfl⟩
  · cases h : (engine.yp_unescape source unescape_type).2 <;>
      simp [unescape, yp_list_empty, h, rb_str_new]
  · cases h : (engine.yp_unescape source unescape_type).2 <;>
      simp [unescape, yp_list_empty, h]

/-- C7: `parser_comments`, `parser_errors` and `parser_warnings` each return the array
whose entries are the records of the entries of the engine's list, one per entry and
in the list's order: the same length, nothing dropped, duplicated or reordered, and
the empty array for an empty list. -/
theorem parser_lists_order_preserved (parser : yp_parser_t) (encoding : rb_encoding) :
    parser_comments parser = .array (parser.comment_list.map fun comment =>
      rb_class_new_instance
        [comment_type_symbol comment.type,
         rb_class_new_instance [LONG2FIX comment.start, LONG2FIX comment.end_] .rb_cYARPLocation]
        .rb_cYARPComment) ∧
    parser_errors parser encoding = .array (parser.error_list.map fun error =>
      rb_class_new_instance
        [rb_enc_str_new error.message encoding,
         rb_class_new_instance [LONG2FIX error.start, LONG2FIX error.end_] .rb_cYARPLocation]
        .rb_cYARPParseError) ∧
    parser_warnings parser encoding = .array (parser.warning_list.map fun warning =>
      rb_class_new_instance
        [rb_enc_str_new warning.message encoding,
         rb_class_new_instance [LONG2FIX warning.start, LONG2FIX warning.end_] .rb_cYARPLocation]
        .rb_cYARPParseWarning) ∧
    (parser_comments parser).elems.length = parser.comment_list.length ∧
    (parser_errors parser encoding).elems.length = parser.error_list.length ∧
    (parser_warnings parser encoding).elems.length = parser.warning_list.length := by
  have hc := foldl_rb_ary_push (fun comment : yp_comment_t =>
      rb_class_new_instance
        [comment_type_symbol comment.type,
         rb_class_new_instance [LONG2FIX comment.start, LONG2FIX comment.end_] .rb_cYARPLocation]
        .rb_cYARPComment) parser.comment_list []
  have he := foldl_rb_ary_push (fun error : yp_diagnostic_t =>
      rb_class_new_instance
        [rb_enc_str_new error.message encoding,
         rb_class_new_instance [LONG2FIX error.start, LONG2FIX error.end_] .rb_cYARPLocation]
        .rb_cYARPParseError) parser.error_list []
  have hw := foldl_rb_ary_push (fun warning : yp_diagnostic_t =>
      rb_class_new_instance
        [rb_enc_str_new warning.message encoding,
         rb_class_new_instance [LONG2FIX warning.start, LONG2FIX warning.end_] .rb_cYARPLocation]
        .rb_cYARPParseWarning) parser.warning_list []
  simp only [List.nil_append] at hc he hw
  have hc2 : parser_comments parser = _ := hc
  have he2 : parser_errors parser encoding = _ := he
  have hw2 : parser_warnings parser encoding = _ := hw
  refine ⟨hc2, he2, hw2, ?_, ?_, ?_⟩
  · rw [hc2]; simp [VALUE.elems]
  · rw [he2]; simp [VALUE.elems]
  · rw [hw2]; simp [VALUE.elems]

/-- C8: `named_captures` returns nil exactly when the engine's
`yp_regexp_named_capture_group_names` reports failure; when it reports success the
result is the array of the strings built from the engine's string list, entry by
entry in its order (a name collected twice appears twice), so the empty array, not
nil, for a success with no names. -/
theorem named_captures_exact (engine : Engine) (rb_source : List Nat) :
    (named_captures engine rb_source = Qnil ↔
        (engine.yp_regexp_named_capture_group_names rb_source).1 = false) ∧
    ((engine.yp_regexp_named_capture_group_names rb_source).1 = false ∨
        named_captures engine rb_source =
          .array ((engine.yp_regexp_named_capture_group_names rb_source).2.map rb_str_new)) ∧
    ((engine.yp_regexp_named_capture_group_names rb_source).1 = false ∨
        (named_captures engine rb_source).elems.length =
          (engine.yp_regexp_named_capture_group_names rb_source).2.length) := by
  have key : ∀ l : List yp_string_t,
      (List.range l.length).foldl
        (fun names index => rb_ary_push names (rb_str_new (l.getD index []))) rb_ary_new =
      .array (l.map rb_str_new) := by
    intro l
    have h := foldl_rb_ary_push (fun index => rb_str_new (l.getD index []))
      (List.range l.length) []
    have h2 : (List.range l.length).map (fun index => rb_str_new (l.getD index [])) =
        l.map rb_str_new := by
      conv_rhs => rw [← map_getD_range l []]
      simp [List.map_map, Function.comp_def]
    rw [List.nil_append, h2] at h
    exact h
  cases h : (engine.yp_regexp_named_capture_group_names rb_source).1
  · simp [named_captures, h]
  · have hk := key (engine.yp_regexp_named_capture_group_names rb_source).2
    have hn : named_captures engine rb_source =
        .array ((engine.yp_regexp_named_capture_group_names rb_source).2.map rb_str_new) := by
      unfold named_captures
      simp only [h, Bool.not_true, Bool.false_eq_true, if_false]
      exact hk
    rw [hn]
    simp [VALUE.elems]

/-- C9: every record `parser_comments` builds carries the symbol that the switch gives
for the comment's classification: `:inline` for `YP_COMMENT_INLINE`, `:embdoc` for
`YP_COMMENT_EMBDOC`, `:__END__` for `YP_COMMENT___END__`, and `:inline` for every
other value; the three recognised classifications get three different symbols. -/
theorem parser_comments_type_symbol (parser : yp_parser_t) :
    (parser_comments parser).elems = (parser.comment_list.map fun comment =>
      VALUE.object .rb_cYARPComment
        [comment_type_symbol comment.type,
         VALUE.object .rb_cYARPLocation [LONG2FIX comment.start, LONG2FIX comment.end_]]) ∧
    comment_type_symbol .YP_COMMENT_INLINE = .symbol "inline" ∧
    comment_type_symbol .YP_COMMENT_EMBDOC = .symbol "embdoc" ∧
    comment_type_symbol .YP_COMMENT___END__ = .symbol "__END__" ∧
    (∀ raw : Nat, comment_type_symbol (.other raw) = .symbol "inline") ∧
    comment_type_symbol .YP_COMMENT_INLINE ≠ comment_type_symbol .YP_COMMENT_EMBDOC ∧
    comment_type_symbol .YP_COMMENT_INLINE ≠ comment_type_symbol .YP_COMMENT___END__ ∧
    comment_type_symbol .YP_COMMENT_EMBDOC ≠ comment_type_symbol .YP_COMMENT___END__ := by
  have hc := foldl_rb_ary_push (fun comment : yp_comment_t =>
      rb_class_new_instance
        [comment_type_symbol comment.type,
         rb_class_new_instance [LONG2FIX comment.start, LONG2FIX comment.end_] .rb_cYARPLocation]
        .rb_cYARPComment) parser.comment_list []
  have hc2 : parser_comments parser = _ := hc
  refine ⟨?_, rfl, rfl, rfl, fun _ => rfl, ?_, ?_, ?_⟩
  · rw [hc2]; simp [VALUE.elems, rb_class_new_instance]
  · simp [comment_type_symbol, ID2SYM]
  · simp [comment_type_symbol, ID2SYM]
  · simp [comment_type_symbol, ID2SYM]

/-! ### The source buffer and the drivers -/

/-- C2: on an existing empty file `open` and `fstat` succeed and `mmap` returns
`MAP_FAILED`, yet `source_file_load` returns `0`, reports nothing with `perror`, and
leaves `MAP_FAILED` as the buffer's data: the test `source == MAP_FAILED` looks at
the struct pointer, not at the mapping. -/
theorem source_file_load_misses_mmap_failure :
    (empty_file_os.mmap 0 3).addr = MAP_FAILED ∧
    source_file_load empty_file_os 0x7ffc00001000 (local_source empty_file_env)
        (bytes "empty.rb") =
      (0, { type := none, source := { addr := MAP_FAILED, bytes := [] }, size := 0 },
       [.open_ (bytes "empty.rb"), .fstat 3, .mmap 0 3, .close 3]) := by
  constructor
  · rfl
  · rfl

/-- With a struct pointer that is not `MAP_FAILED` (every real one), `source_file_load`
returns `0` exactly when `open` and `fstat` succeeded, whatever `mmap` returned. -/
theorem source_file_load_eq_zero_iff (os : OS) (source_addr : Nat) (source0 : source_t)
    (filepath : List Nat) (hframe : source_addr ≠ MAP_FAILED) :
    (source_file_load os source_addr source0 filepath).1 = 0 ↔
      os.open_ filepath ≠ -1 ∧ os.fstat (os.open_ filepath) ≠ none := by
  by_cases h1 : os.open_ filepath = -1
  · simp [source_file_load, h1]
  · cases h2 : os.fstat (os.open_ filepath) with
    | none => simp [source_file_load, h1, h2]
    | some st_size => simp [source_file_load, h1, h2, hframe]

theorem yp_parse_directive_some {σ : Type} (lc : Option (yp_parser_t → yp_token_t → σ → σ))
    (callback : σ → List Nat → Nat → Option (Option yp_encoding_t × σ))
    (parser : yp_parser_t) (start : List Nat) (width : Nat)
    (next : Option yp_encoding_t → Run) (data : σ) (answer : Option yp_encoding_t × σ)
    (h : callback data start width = some answer) :
    yp_parse lc (some callback) (.directive parser start width next) data =
      { yp_parse lc (some callback) (next answer.1) answer.2 with
        calls := Call.encoding_decode_callback start width ::
          (yp_parse lc (some callback) (next answer.1) answer.2).calls } := by
  rw [yp_parse]
  simp only [h]

theorem yp_parse_directive_none {σ : Type} (lc : Option (yp_parser_t → yp_token_t → σ → σ))
    (callback : σ → List Nat → Nat → Option (Option yp_encoding_t × σ))
    (parser : yp_parser_t) (start : List Nat) (width : Nat)
    (next : Option yp_encoding_t → Run) (data : σ)
    (h : callback data start width = none) :
    yp_parse lc (some callback) (.directive parser start width next) data =
      { returned := none, data := data, calls := [Call.encoding_decode_callback start width] } := by
  rw [yp_parse]
  simp only [h]

theorem yp_parse_calls {σ : Type} (lc : Option (yp_parser_t → yp_token_t → σ → σ))
    (ec : Option (σ → List Nat → Nat → Option (Option yp_encoding_t × σ))) (run : Run) :
    ∀ data : σ, ∀ c ∈ (yp_parse lc ec run data).calls,
      c.is_release = false ∧ c.is_acquire = false := by
  induction run with
  | finished parser node => intro data c hc; simp [yp_parse] at hc
  | token parser tok next ih =>
    intro data c hc
    cases lc with
    | none => exact ih data c (by simpa [yp_parse] using hc)
    | some callback =>
      simp only [yp_parse, List.mem_cons] at hc
      rcases hc with rfl | hc
      · exact ⟨rfl, rfl⟩
      · exact ih _ c hc
  | directive parser start width next ih =>
    intro data c hc
    cases ec with
    | none => exact ih none data c (by simpa [yp_parse] using hc)
    | some callback =>
      cases hcb : callback data start width with
      | none =>
        rw [yp_parse_directive_none lc callback parser start width next data hcb] at hc
        simp only [List.mem_singleton] at hc
        subst hc
        exact ⟨rfl, rfl⟩
      | some answer =>
        rw [yp_parse_directive_some lc callback parser start width next data answer hcb] at hc
        simp only [List.mem_cons] at hc
        rcases hc with rfl | hc
        · exact ⟨rfl, rfl⟩
        · exact ih _ _ c hc

/-- With no callback registered a run of `yp_parse` always returns. -/
theorem yp_parse_unregistered_returned (run : Run) :
    ∃ parsed, (yp_parse (none : Option (yp_parser_t → yp_token_t → Unit → Unit)) none
      run ()).returned = some parsed := by
  induction run with
  | finished parser node => exact ⟨(parser, node), rfl⟩
  | token parser tok next ih => simpa [yp_parse] using ih
  | directive parser start width next ih => simpa [yp_parse] using ih none

theorem dump_source_calls (env : Env) (source : source_t) :
    ∀ c ∈ (dump_source env source).2, c.is_release = false := by
  have hd := yp_parse_calls (none : Option (yp_parser_t → yp_token_t → Unit → Unit)) none
    (env.engine.yp_parse_run source.source source.size) ()
  intro c hc
  unfold dump_source at hc
  cases hr : (yp_parse (none : Option (yp_parser_t → yp_token_t → Unit → Unit)) none
    (env.engine.yp_parse_run source.source source.size) ()).returned with
  | none =>
    simp only [hr, List.mem_append, List.mem_cons, List.mem_singleton, List.not_mem_nil,
      or_false] at hc
    rcases hc with (rfl | rfl) | hc
    · rfl
    · rfl
    · exact (hd c hc).1
  | some parsed =>
    simp only [hr, List.mem_append, List.mem_cons, List.mem_singleton, List.not_mem_nil,
      or_false] at hc
    rcases hc with ((rfl | rfl) | hc) | rfl | rfl | rfl | rfl | rfl
    all_goals first
      | rfl
      | exact (hd c hc).1

theorem lex_source_calls (env : Env) (source : source_t) :
    ∀ c ∈ (lex_source env source).2, c.is_release = false := by
  have hl := yp_parse_calls (some lex_token) (some (lex_encoding_callback env.process env.host))
    (env.engine.yp_parse_run source.source source.size)
    { tokens := rb_ary_new, encoding := env.host.rb_utf8_encoding }
  intro c hc
  unfold lex_source at hc
  cases hr : (lex_source_parse env source).returned with
  | none =>
    simp only [hr, List.mem_append, List.mem_cons, List.mem_singleton, List.not_mem_nil,
      or_false] at hc
    rcases hc with (rfl | rfl | rfl) | hc
    · rfl
    · rfl
    · rfl
    · exact (hl c hc).1
  | some parsed =>
    simp only [hr, List.mem_append, List.mem_cons, List.mem_singleton, List.not_mem_nil,
      or_false] at hc
    rcases hc with ((rfl | rfl | rfl) | hc) | rfl | rfl
    all_goals first
      | rfl
      | exact (hl c hc).1

theorem parse_source_calls (env : Env) (source : source_t) :
    ∀ c ∈ (parse_source env source).2, c.is_release = false := by
  have hd := yp_parse_calls (none : Option (yp_parser_t → yp_token_t → Unit → Unit)) none
    (env.engine.yp_parse_run source.source source.size) ()
  intro c hc
  unfold parse_source at hc
  cases hr : (yp_parse (none : Option (yp_parser_t → yp_token_t → Unit → Unit)) none
    (env.engine.yp_parse_run source.source source.size) ()).returned with
  | none =>
    simp only [hr, List.mem_append, List.mem_cons, List.mem_singleton, List.not_mem_nil,
      or_false] at hc
    rcases hc with (rfl | rfl) | hc
    · rfl
    · rfl
    · exact (hd c hc).1
  | some parsed =>
    simp only [hr, List.mem_append, List.mem_cons, List.mem_singleton, List.not_mem_nil,
      or_false] at hc
    rcases hc with ((rfl | rfl) | hc) | rfl | rfl
    all_goals first
      | rfl
      | exact (hd c hc).1

/-- C3: `dump`, `lex` and `parse` on a string each acquire the heap copy with `malloc`
and return without any call that releases a buffer: the copy made by
`source_string_load` is never freed. -/
theorem string_drivers_never_release (env : Env) (string : List Nat) :
    (Call.malloc string.length ∈ (dump env string).2 ∧
      ∀ c ∈ (dump env string).2, c.is_release = false) ∧
    (Call.malloc string.length ∈ (lex env string).2 ∧
      ∀ c ∈ (lex env string).2, c.is_release = false) ∧
    (Call.malloc string.length ∈ (parse env string).2 ∧
      ∀ c ∈ (parse env string).2, c.is_release = false) := by
  refine ⟨⟨?_, ?_⟩, ⟨?_, ?_⟩, ⟨?_, ?_⟩⟩
  · simp [dump, source_string_load]
  · intro c hc
    simp only [dump, source_string_load, List.mem_append, List.mem_singleton] at hc
    rcases hc with rfl | hc
    · rfl
    · exact dump_source_calls env _ c hc
  · simp [lex, source_string_load]
  · intro c hc
    simp only [lex, source_string_load, List.mem_append, List.mem_singleton] at hc
    rcases hc with rfl | hc
    · rfl
    · exact lex_source_calls env _ c hc
  · simp [parse, source_string_load]
  · intro c hc
    simp only [parse, source_string_load, List.mem_append, List.mem_singleton] at hc
    rcases hc with rfl | hc
    · rfl
    · exact parse_source_calls env _ c hc

theorem source_file_load_calls (os : OS) (source_addr : Nat) (source0 : source_t)
    (filepath : List Nat) :
    ∀ c ∈ (source_file_load os source_addr source0 filepath).2.2,
      c.is_engine = false ∧ c.is_release = false := by
  by_cases h1 : os.open_ filepath = -1
  · simp [source_file_load, h1, Call.is_engine, Call.is_release]
  · cases h2 : os.fstat (os.open_ filepath) with
    | none => simp [source_file_load, h1, h2, Call.is_engine, Call.is_release]
    | some st_size =>
      by_cases h3 : source_addr = MAP_FAILED
      · simp [source_file_load, h1, h2, h3, Call.is_engine, Call.is_release]
      · simp [source_file_load, h1, h2, h3, Call.is_engine, Call.is_release]

/-- C4: when `source_file_load` returns nonzero, each of `dump_file`, `lex_file` and
`parse_file` returns nil, and none of the calls it made is a call into the engine, a
callback, or a release of a buffer (no `munmap`). -/
theorem file_drivers_no_result (env : Env) (filepath : List Nat)
    (h : (source_file_load env.os env.frame (local_source env) filepath).1 ≠ 0) :
    ((dump_file env filepath).1 = some Qnil ∧
      ∀ c ∈ (dump_file env filepath).2, c.is_engine = false ∧ c.is_release = false) ∧
    ((lex_file env filepath).1 = some Qnil ∧
      ∀ c ∈ (lex_file env filepath).2, c.is_engine = false ∧ c.is_release = false) ∧
    ((parse_file env filepath).1 = some Qnil ∧
      ∀ c ∈ (parse_file env filepath).2, c.is_engine = false ∧ c.is_release = false) := by
  have hcalls := source_file_load_calls env.os env.frame (local_source env) filepath
  have e1 : dump_file env filepath =
      (some Qnil, (source_file_load env.os env.frame (local_source env) filepath).2.2) := by
    simp only [dump_file, if_pos h]
  have e2 : lex_file env filepath =
      (some Qnil, (source_file_load env.os env.frame (local_source env) filepath).2.2) := by
    simp only [lex_file, if_pos h]
  have e3 : parse_file env filepath =
      (some Qnil, (source_file_load env.os env.frame (local_source env) filepath).2.2) := by
    simp only [parse_file, if_pos h]
  rw [e1, e2, e3]
  exact ⟨⟨rfl, hcalls⟩, ⟨rfl, hcalls⟩, ⟨rfl, hcalls⟩⟩

theorem file_drivers_no_result_witness :
    (source_file_load missing_file_env.os missing_file_env.frame
        (local_source missing_file_env) (bytes "missing.rb")).1 ≠ 0 ∧
    (((dump_file missing_file_env (bytes "missing.rb")).1 = some Qnil ∧
      ∀ c ∈ (dump_file missing_file_env (bytes "missing.rb")).2,
        c.is_engine = false ∧ c.is_release = false) ∧
    ((lex_file missing_file_env (bytes "missing.rb")).1 = some Qnil ∧
      ∀ c ∈ (lex_file missing_file_env (bytes "missing.rb")).2,
        c.is_engine = false ∧ c.is_release = false) ∧
    ((parse_file missing_file_env (bytes "missing.rb")).1 = some Qnil ∧
      ∀ c ∈ (parse_file missing_file_env (bytes "missing.rb")).2,
        c.is_engine = false ∧ c.is_release = false)) :=
  ⟨by decide, file_drivers_no_result missing_file_env (bytes "missing.rb") (by decide)⟩

/-! ### The lex run -/

theorem lex_encoding_callback_eq (P : Process) (H : Host) (ld : lex_data_t) (start : List Nat)
    (width : Nat) :
    lex_encoding_callback P H ld start width =
      ((lex_encoding_callback P H ld start width).map Prod.fst).map fun d =>
        (d, match d with
          | some e => { ld with encoding := H.rb_enc_find e.name }
          | none => ld) := by
  unfold lex_encoding_callback
  simp only []
  split_ifs <;> rfl

theorem lex_encoding_callback_map_fst (P : Process) (H : Host) (ld ld2 : lex_data_t)
    (start : List Nat) (width : Nat) :
    (lex_encoding_callback P H ld start width).map Prod.fst =
      (lex_encoding_callback P H ld2 start width).map Prod.fst := by
  unfold lex_encoding_callback
  simp only []
  split_ifs <;> rfl

theorem strncasecmp_self (fold : Nat → Nat) (n : Nat) :
    ∀ s : List Nat, strncasecmp fold s s n = 0 := by
  induction n with
  | zero => intro s; simp [strncasecmp]
  | succ n ih =>
    intro s
    simp only [strncasecmp, ne_eq, not_true_eq_false, if_false]
    split
    · rfl
    · exact ih _

theorem emissions_append (a b : List Call) : emissions (a ++ b) = emissions a ++ emissions b := by
  induction a with
  | nil => rfl
  | cons c cs ih => cases c <;> simp [emissions, ih]

/-- What the run of `yp_parse` inside `lex_source` leaves behind, read off the engine
run along the path the driver's answers select. -/
theorem lex_run_follows (env : Env) (run : Run) :
    ∀ (ld : lex_data_t) (acc : List VALUE), ld.tokens = .array acc →
      (yp_parse (some lex_token) (some (lex_encoding_callback env.process env.host))
          run ld).returned = run.final (lex_answer env) ∧
      emissions (yp_parse (some lex_token) (some (lex_encoding_callback env.process env.host))
          run ld).calls = run.emitted (lex_answer env) ∧
      (∃ new : List VALUE,
        (yp_parse (some lex_token) (some (lex_encoding_callback env.process env.host))
          run ld).data.tokens = .array (acc ++ new) ∧
        List.Forall₂ token_entry_of new (run.emitted (lex_answer env))) ∧
      (yp_parse (some lex_token) (some (lex_encoding_callback env.process env.host))
          run ld).data.encoding =
        match run.last_resolved (lex_answer env) with
        | some d => env.host.rb_enc_find d.name
        | none => ld.encoding := by
  induction run with
  | finished parser node =>
    intro ld acc h
    refine ⟨rfl, rfl, ⟨[], ?_, ?_⟩, rfl⟩
    · simpa [yp_parse] using h
    · simp [Run.emitted]
  | token parser tok next ih =>
    intro ld acc h
    have hstep : (lex_token parser tok ld).tokens =
        .array (acc ++ [.array [yp_token_new parser tok ld.encoding,
          INT2FIX parser.lex_state]]) := by
      simp [lex_token, h, rb_ary_push, rb_ary_new]
    obtain ⟨h1, h2, ⟨new, h3, h4⟩, h5⟩ := ih (lex_token parser tok ld) _ hstep
    refine ⟨?_, ?_, ⟨.array [yp_token_new parser tok ld.encoding,
      INT2FIX parser.lex_state] :: new, ?_, ?_⟩, ?_⟩
    · simpa [yp_parse, Run.final] using h1
    · simpa [yp_parse, Run.emitted, emissions] using h2
    · simpa [yp_parse] using h3
    · simp only [Run.emitted]
      exact List.Forall₂.cons ⟨ld.encoding, rfl⟩ h4
    · simpa [yp_parse, Run.last_resolved, lex_token] using h5
  | directive parser start width next ih =>
    intro ld acc h
    have hans : lex_answer env start width =
        (lex_encoding_callback env.process env.host ld start width).map Prod.fst :=
      lex_encoding_callback_map_fst _ _ _ _ _ _
    have heq := lex_encoding_callback_eq env.process env.host ld start width
    cases hcb : lex_encoding_callback env.process env.host ld start width with
    | none =>
      rw [hcb] at hans
      rw [yp_parse_directive_none _ _ parser start width next ld hcb]
      simp only [Option.map_none'] at hans
      refine ⟨?_, ?_, ⟨[], ?_, ?_⟩, ?_⟩
      · simp [Run.final, hans]
      · simp [Run.emitted, hans, emissions]
      · simpa using h
      · simp [Run.emitted, hans]
      · simp [Run.last_resolved, hans]
    | some answer =>
      rw [hcb] at hans heq
      simp only [Option.map_some'] at hans heq
      have hans2 : answer.2 = match answer.1 with
          | some e => { ld with encoding := env.host.rb_enc_find e.name }
          | none => ld := by
        have := Option.some.inj heq
        exact congrArg Prod.snd this
      have htok : answer.2.tokens = .array acc := by
        rw [hans2]; split <;> exact h
      obtain ⟨h1, h2, ⟨new, h3, h4⟩, h5⟩ := ih answer.1 answer.2 acc htok
      rw [yp_parse_directive_some _ _ parser start width next ld answer hcb]
      refine ⟨?_, ?_, ⟨new, ?_, ?_⟩, ?_⟩
      · simpa [Run.final, hans] using h1
      · simpa [Run.emitted, hans, emissions] using h2
      · simpa using h3
      · simpa [Run.emitted, hans] using h4
      · simp only [Run.last_resolved, hans]
        rw [h5]
        cases (next answer.1).last_resolved (lex_answer env) with
        | some later => rfl
        | none =>
          simp only []
          rw [hans2]
          cases answer.1 <;> rfl

theorem lex_source_follows (env : Env) (source : source_t) :
    ∃ entries : List VALUE,
      List.Forall₂ token_entry_of entries
        ((env.engine.yp_parse_run source.source source.size).emitted (lex_answer env)) ∧
      emissions (lex_source env source).2 =
        (env.engine.yp_parse_run source.source source.size).emitted (lex_answer env) ∧
      (lex_source env source).1 =
        ((env.engine.yp_parse_run source.source source.size).final (lex_answer env)).map
          fun parsed => VALUE.object .rb_cYARPParseResult
            [.array entries, parser_comments parsed.1,
             parser_errors parsed.1
               (last_resolved_encoding env (env.engine.yp_parse_run source.source source.size)),
             parser_warnings parsed.1
               (last_resolved_encoding env (env.engine.yp_parse_run source.source source.size))] := by
  obtain ⟨h1, h2, ⟨new, h3, h4⟩, h5⟩ := lex_run_follows env
    (env.engine.yp_parse_run source.source source.size)
    { tokens := rb_ary_new, encoding := env.host.rb_utf8_encoding } [] rfl
  have h1b : (lex_source_parse env source).returned = _ := h1
  have h2b : emissions (lex_source_parse env source).calls = _ := h2
  have h3b : (lex_source_parse env source).data.tokens = .array new := by
    simpa [lex_source_parse] using h3
  have h5b : (lex_source_parse env source).data.encoding =
      last_resolved_encoding env (env.engine.yp_parse_run source.source source.size) := h5
  refine ⟨new, h4, ?_, ?_⟩
  · unfold lex_source
    cases hr : (lex_source_parse env source).returned <;>
      simp [hr, emissions, emissions_append, h2b]
  · unfold lex_source
    rw [← h1b]
    cases hr : (lex_source_parse env source).returned with
    | none => simp [hr]
    | some parsed => simp [hr, rb_class_new_instance, h3b, h5b]

/-- C6: the engine run on the source, followed along the path that the driver's answers
to its encoding directives select, emits tokens through the token callback; the log
of `lex_source` has exactly these invocations, and when the run returns, the value of
the result of `lex_source` is an array with exactly one entry per emitted token, in
emission order, the i-th entry being the pair of the host token of the i-th emitted
token and the `lex_state` of the parser at that callback (the empty array when
nothing is emitted). -/
theorem lex_source_tokens (env : Env) (source : source_t) :
    ∃ entries : List VALUE,
      List.Forall₂ token_entry_of entries
        ((env.engine.yp_parse_run source.source source.size).emitted (lex_answer env)) ∧
      entries.length =
        ((env.engine.yp_parse_run source.source source.size).emitted (lex_answer env)).length ∧
      emissions (lex_source env source).2 =
        (env.engine.yp_parse_run source.source source.size).emitted (lex_answer env) ∧
      (lex_source env source).1 =
        ((env.engine.yp_parse_run source.source source.size).final (lex_answer env)).map
          fun parsed => VALUE.object .rb_cYARPParseResult
            [.array entries, parser_comments parsed.1,
             parser_errors parsed.1
               (last_resolved_encoding env (env.engine.yp_parse_run source.source source.size)),
             parser_warnings parsed.1
               (last_resolved_encoding env (env.engine.yp_parse_run source.source source.size))] := by
  obtain ⟨entries, h1, h2, h3⟩ := lex_source_follows env source
  exact ⟨entries, h1, h1.length_eq, h2, h3⟩

end Yarp
